import Mathlib

/-!
# Webhook bootstrap and readiness (`pkg/webhook/server.go`)

A shallow embedding of the webhook registration shim: the controller-webhook
registry (`addControllerWebhook`), the bootstrap pass (`SetupWithManager` and
its `setup` closure), the health gate (`Checker`) and the retry loop
(`WaitReady`).

Conventions of the embedding.

* A Go `error` is its message; `none` is the nil error.
* A Go map is the list of its entries.  Go ranges over a map in an
  unspecified order: the order of the list is the order in which the run at
  hand visits the entries, and the theorems hold for every order.
* A Go slice is `Option (List α)`, `none` being the nil slice.
* A handler is the triple its `SetupWebhookWithManager(mgr)` returns.
* The package variables `controllerWebhooks` and `WebhookHandlerPath` are
  passed in and out explicitly.  `State.invoked` is a ghost trace of the
  handlers whose `SetupWebhookWithManager` was called, `State.log` collects
  the `klog` lines.
* A `panic` is the outcome `Outcome.panicked`: the function did not return.
* `util.IsWebhookDisabled`, `ctrlutil.IsControllerEnabled` and
  `health.Checker` live in other packages; they are parameters.
* `Initialize` meets two things it does not decide: what
  `webhookcontroller.New` returns, and whether the channel
  `webhookcontroller.Inited()` is closed before the 20 s timer delivers.
  Both are inputs (`InitEnv`).
-/

namespace Webhook

/-! ## Data model -/

/-- A Go slice: `none` is the nil slice, `some xs` a non-nil slice holding `xs`. -/
abbrev Slice (α : Type) := Option (List α)

/-- The elements of a slice, in order (a nil slice has none). -/
def Slice.toList {α : Type} : Slice α → List α
  | none => []
  | some xs => xs

/-- Go `append(s, x)`: a non-nil slice with `x` after the elements of `s`. -/
def goAppend {α : Type} (s : Slice α) (x : α) : Slice α :=
  some (s.toList ++ [x])

/-- A Go `map[string]V`, as the list of its entries. -/
abbrev GoMap (V : Type) := List (String × V)

/-- Go `m[name]` on a map of slices: the stored slice, or the zero value (the
nil slice) when the key is absent. -/
def GoMap.get {α : Type} : GoMap (Slice α) → String → Slice α
  | [], _ => none
  | (k, v) :: rest, name => if k = name then v else GoMap.get rest name

/-- Go `m[name] = v`: overwrite the entry of `name`, or add one. -/
def GoMap.set {V : Type} : GoMap V → String → V → GoMap V
  | [], name, v => [(name, v)]
  | (k, w) :: rest, name, v =>
    if k = name then (k, v) :: rest else (k, w) :: GoMap.set rest name v

/-- The entries a `range` over a possibly nil map visits. -/
def rangeMap {V : Type} : Option (GoMap V) → List (String × V)
  | none => []
  | some m => m

/-- A value of the interface `SetupWebhookWithManager`, given by what its method
returns for the manager at hand: mutate path, validate path, error. -/
structure Handler where
  m : String
  v : String
  err : Option String
deriving DecidableEq, Repr

/-- The mutate and the validate path of a handler, in the order `setup`
processes them. -/
def Handler.paths (s : Handler) : List String := [s.m, s.v]

/-- The part of `config.CompletedConfig` read by the bootstrap:
`c.ComponentConfig.Generic.DisabledWebhooks` and
`c.ComponentConfig.Generic.Controllers`. -/
structure Config where
  DisabledWebhooks : List String
  Controllers : List String
deriving DecidableEq, Repr

/-- How a call ended: it returned nil, it returned an error, or it panicked. -/
inductive Outcome where
  | nil
  | error (msg : String)
  | panicked (msg : String)
deriving DecidableEq, Repr

/-- The package state the bootstrap works on.  `WebhookHandlerPath` is the key
set of the Go map of that name, in insertion order. -/
structure State where
  WebhookHandlerPath : List String
  invoked : List Handler
  log : List String
deriving DecidableEq, Repr

/-- Go `WebhookHandlerPath[k] = v` on the set-like map: a key already present
stays once. -/
def insertKey (k : String) (keys : List String) : List String :=
  if k ∈ keys then keys else keys ++ [k]

/-! ## Handler registry -/

/-- Embedding of `addControllerWebhook` (server.go, lines 62-72) on the package
variable `controllerWebhooks`, a possibly nil map. -/
def addControllerWebhook {α : Type} (controllerWebhooks : Option (GoMap (Slice α)))
    (name : String) (handler : α) : Option (GoMap (Slice α)) :=
  let cw0 : GoMap (Slice α) :=
    match controllerWebhooks with
    | none => []
    | some t => t
  let cw1 : GoMap (Slice α) :=
    if (GoMap.get cw0 name).isNone then GoMap.set cw0 name (some []) else cw0
  some (GoMap.set cw1 name (goAppend (GoMap.get cw1 name) handler))

/-- The handlers stored under `name` in the package variable, in order. -/
def handlersOf {α : Type} (controllerWebhooks : Option (GoMap (Slice α)))
    (name : String) : List α :=
  (GoMap.get (rangeMap controllerWebhooks) name).toList

/-! ## Bootstrap -/

/-- Embedding of the closure `setup` of `SetupWithManager` (lines 90-107). -/
def setup (s : Handler) (st : State) : Outcome × State :=
  let st0 : State := { st with invoked := st.invoked ++ [s] }
  match s.err with
  | some e => (Outcome.error ("unable to create webhook " ++ e), st0)
  | none =>
    if s.m ∈ st0.WebhookHandlerPath then
      (Outcome.panicked ("webhook handler path " ++ s.m ++ " duplicated"), st0)
    else
      let st1 : State :=
        { st0 with
          WebhookHandlerPath := insertKey s.m st0.WebhookHandlerPath
          log := st0.log ++ ["Add webhook mutate path " ++ s.m] }
      if s.v ∈ st1.WebhookHandlerPath then
        (Outcome.panicked ("webhook handler path " ++ s.v ++ " duplicated"), st1)
      else
        let st2 : State :=
          { st1 with
            WebhookHandlerPath := insertKey s.v st1.WebhookHandlerPath
            log := st1.log ++ ["Add webhook validate path " ++ s.v] }
        (Outcome.nil, st2)

/-- The inner loop `for _, s := range list` (lines 126-130): `Outcome.nil` means
the loop ran to its end, any other outcome leaves `SetupWithManager`. -/
def setupList : List Handler → State → Outcome × State
  | [], st => (Outcome.nil, st)
  | s :: rest, st =>
    match setup s st with
    | (Outcome.nil, st1) => setupList rest st1
    | r => r

/-- The loop over `independentWebhooks` (lines 110-118). -/
def setupIndependent (IsWebhookDisabled : String → List String → Bool) (c : Config) :
    List (String × Handler) → State → Outcome × State
  | [], st => (Outcome.nil, st)
  | (name, s) :: rest, st =>
    if IsWebhookDisabled name c.DisabledWebhooks then
      setupIndependent IsWebhookDisabled c rest
        { st with log := st.log ++ ["Webhook " ++ name ++ " is disabled"] }
    else
      match setup s st with
      | (Outcome.nil, st1) => setupIndependent IsWebhookDisabled c rest st1
      | r => r

/-- The loop over `controllerWebhooks` (lines 121-131). -/
def setupControllers (IsControllerEnabled : String → List String → Bool) (c : Config) :
    List (String × Slice Handler) → State → Outcome × State
  | [], st => (Outcome.nil, st)
  | (controllerName, list) :: rest, st =>
    if !IsControllerEnabled controllerName c.Controllers then
      setupControllers IsControllerEnabled c rest
        { st with log := st.log ++ ["Webhook for " ++ controllerName ++ " is disabled"] }
    else
      match setupList list.toList st with
      | (Outcome.nil, st1) => setupControllers IsControllerEnabled c rest st1
      | r => r

/-- Embedding of `SetupWithManager` (lines 89-133): the independent webhooks
first, then the controller webhooks. -/
def SetupWithManager (IsWebhookDisabled IsControllerEnabled : String → List String → Bool)
    (c : Config) (independentWebhooks : GoMap Handler)
    (controllerWebhooks : Option (GoMap (Slice Handler))) (st : State) : Outcome × State :=
  match setupIndependent IsWebhookDisabled c independentWebhooks st with
  | (Outcome.nil, st1) =>
    setupControllers IsControllerEnabled c (rangeMap controllerWebhooks) st1
  | r => r

/-- The package state at process start: nothing mounted, nothing invoked. -/
def State.init : State := { WebhookHandlerPath := [], invoked := [], log := [] }

/-- The handlers whose gate lets them through, in the order the two loops of
`SetupWithManager` reach them. -/
def enabledHandlers (IsWebhookDisabled IsControllerEnabled : String → List String → Bool)
    (c : Config) (independentWebhooks : GoMap Handler)
    (controllerWebhooks : Option (GoMap (Slice Handler))) : List Handler :=
  ((independentWebhooks.filter
      (fun e => !IsWebhookDisabled e.1 c.DisabledWebhooks)).map (fun e => e.2))
    ++ ((rangeMap controllerWebhooks).filter
      (fun e => IsControllerEnabled e.1 c.Controllers)).flatMap (fun e => e.2.toList)

/-! ## Readiness -/

/-- Embedding of `Checker` (lines 161-169).  `inited` says whether the channel
`webhookcontroller.Inited()` is closed when the `select` runs.  The second
component lists the requests handed to `health.Checker`. -/
def Checker {Req : Type} (inited : Bool) (healthChecker : Option Req → Option String)
    (req : Option Req) : Option String × List (Option Req) :=
  if inited then (healthChecker req, [req])
  else (some "webhook controller has not initialized", [])

/-- What `WaitReady` meets at its `k`-th iteration (counted from 0): the state
of the latch, the health probe, and `time.Since(startTS)` in nanoseconds. -/
structure Env (Req : Type) where
  inited : Nat → Bool
  healthChecker : Nat → Option Req → Option String
  since : Nat → Int

/-- The observable effects of `WaitReady`: calls of `Checker`, requests handed
to `health.Checker`, warnings logged (elapsed time and error), and the total
time slept in nanoseconds. -/
structure WaitTrace (Req : Type) where
  checkerCalls : Nat
  probeCalls : List (Option Req)
  warnings : List (Int × String)
  slept : Int

/-- One `time.Second`, in nanoseconds. -/
def second : Int := 1000000000

/-- The loop of `WaitReady` (lines 174-184), started at iteration `k`.  `fuel`
bounds the number of iterations; `none` means the loop is still running when
the fuel is spent. -/
def WaitReadyLoop {Req : Type} (env : Env Req) :
    Nat → Nat → WaitTrace Req → Option (Option String × WaitTrace Req)
  | 0, _, _ => none
  | fuel + 1, k, tr =>
    let duration := env.since k
    let r := Checker (env.inited k) (env.healthChecker k) none
    let tr1 : WaitTrace Req :=
      { tr with checkerCalls := tr.checkerCalls + 1, probeCalls := tr.probeCalls ++ r.2 }
    match r.1 with
    | none => some (none, tr1)
    | some e =>
      let tr2 : WaitTrace Req :=
        if duration > second * 5 then { tr1 with warnings := tr1.warnings ++ [(duration, e)] }
        else tr1
      WaitReadyLoop env fuel (k + 1) { tr2 with slept := tr2.slept + second * 2 }

/-- Embedding of `WaitReady` (lines 171-186). -/
def WaitReady {Req : Type} (env : Env Req) (fuel : Nat) :
    Option (Option String × WaitTrace Req) :=
  WaitReadyLoop env fuel 0 { checkerCalls := 0, probeCalls := [], warnings := [], slept := 0 }

/-- The error `Checker(nil)` returns at the `k`-th iteration of `WaitReady`. -/
def checkerAt {Req : Type} (env : Env Req) (k : Nat) : Option String :=
  (Checker (env.inited k) (env.healthChecker k) none).1

/-- What `Initialize` meets.  `newErr` is the error `webhookcontroller.New`
returns (`none` when it returns a controller).  `initedWithin20s` says whether
the channel `webhookcontroller.Inited()` is closed before the timer of
`time.Second * 20` delivers, that is, which case the `select` of lines 153-158
takes. -/
structure InitEnv where
  newErr : Option String
  initedWithin20s : Bool
deriving DecidableEq, Repr

/-- Embedding of `Initialize` (lines 142-159).  The second component says
whether the goroutine running `c.Start(ctx)` was launched. -/
def Initialize (env : InitEnv) : Option String × Bool :=
  match env.newErr with
  | some err => (some err, false)
  | none =>
    if env.initedWithin20s then (none, true)
    else (some "failed to start webhook controller for waiting more than 20s", true)

/-! ## Auxiliary definitions -/

/-- Two states with the same mounted paths and the same invocations. -/
def SameCore (st st' : State) : Prop :=
  st.WebhookHandlerPath = st'.WebhookHandlerPath ∧ st.invoked = st'.invoked

/-- Two results with the same outcome whose states differ in the log only. -/
def Agree (r r' : Outcome × State) : Prop :=
  r.1 = r'.1 ∧ SameCore r.2 r'.2

/-- A sample gate for the examples: the name is in the list. -/
def listed (name : String) (names : List String) : Bool := names.contains name

/-- A sample course of events: polls are 2 s apart and the signal fires at 7 s,
so the latch is set from iteration 4 (at 8 s) on; the health probe is content. -/
def readyAfterDelay : Env Unit :=
  { inited := fun k => decide (4 ≤ k)
    healthChecker := fun _ _ => none
    since := fun k => second * 2 * k }

/-! ## The closure `setup` -/

theorem setup_of_err (s : Handler) (st : State) (e : String) (h : s.err = some e) :
    setup s st = (Outcome.error ("unable to create webhook " ++ e),
      { st with invoked := st.invoked ++ [s] }) := by
  simp [setup, h]

theorem setup_of_dup_m (s : Handler) (st : State) (h : s.err = none)
    (hm : s.m ∈ st.WebhookHandlerPath) :
    setup s st = (Outcome.panicked ("webhook handler path " ++ s.m ++ " duplicated"),
      { st with invoked := st.invoked ++ [s] }) := by
  simp [setup, h, hm]

theorem setup_of_dup_v (s : Handler) (st : State) (h : s.err = none)
    (hm : s.m ∉ st.WebhookHandlerPath) (hv : s.v ∈ st.WebhookHandlerPath ++ [s.m]) :
    setup s st = (Outcome.panicked ("webhook handler path " ++ s.v ++ " duplicated"),
      { WebhookHandlerPath := st.WebhookHandlerPath ++ [s.m]
        invoked := st.invoked ++ [s]
        log := st.log ++ ["Add webhook mutate path " ++ s.m] }) := by
  simp only [setup, h, insertKey, if_neg hm, if_pos hv]

theorem setup_of_fresh (s : Handler) (st : State) (h : s.err = none)
    (hm : s.m ∉ st.WebhookHandlerPath) (hv : s.v ∉ st.WebhookHandlerPath ++ [s.m]) :
    setup s st = (Outcome.nil,
      { WebhookHandlerPath := st.WebhookHandlerPath ++ [s.m, s.v]
        invoked := st.invoked ++ [s]
        log := st.log ++ ["Add webhook mutate path " ++ s.m,
          "Add webhook validate path " ++ s.v] }) := by
  simp only [setup, h, insertKey, if_neg hm, if_neg hv]
  simp

/-- What a nil return of `setup` says about the handler and the two states. -/
theorem setup_nil_inv (s : Handler) (st : State) (h : (setup s st).1 = Outcome.nil) :
    s.err = none ∧ s.m ∉ st.WebhookHandlerPath ∧ s.v ∉ st.WebhookHandlerPath ++ [s.m] ∧
      (setup s st).2.WebhookHandlerPath = st.WebhookHandlerPath ++ [s.m, s.v] ∧
      (setup s st).2.invoked = st.invoked ++ [s] := by
  cases he : s.err with
  | some e => rw [setup_of_err s st e he] at h; simp at h
  | none =>
    by_cases hm : s.m ∈ st.WebhookHandlerPath
    · rw [setup_of_dup_m s st he hm] at h; simp at h
    · by_cases hv : s.v ∈ st.WebhookHandlerPath ++ [s.m]
      · rw [setup_of_dup_v s st he hm hv] at h; simp at h
      · rw [setup_of_fresh s st he hm hv]
        exact ⟨rfl, hm, hv, rfl, rfl⟩

/-- Whatever the outcome, `setup` records exactly one invocation. -/
theorem setup_invoked (s : Handler) (st : State) :
    (setup s st).2.invoked = st.invoked ++ [s] := by
  cases he : s.err with
  | some e => rw [setup_of_err s st e he]
  | none =>
    by_cases hm : s.m ∈ st.WebhookHandlerPath
    · rw [setup_of_dup_m s st he hm]
    · by_cases hv : s.v ∈ st.WebhookHandlerPath ++ [s.m]
      · rw [setup_of_dup_v s st he hm hv]
      · rw [setup_of_fresh s st he hm hv]

/-! ## States that differ in the log only -/

theorem Agree.refl (r : Outcome × State) : Agree r r := ⟨rfl, rfl, rfl⟩

theorem setup_agree (s : Handler) (st st' : State) (h : SameCore st st') :
    Agree (setup s st) (setup s st') := by
  obtain ⟨hp, hi⟩ := h
  cases he : s.err with
  | some e =>
    rw [setup_of_err s st e he, setup_of_err s st' e he]
    exact ⟨rfl, hp, by simp [hi]⟩
  | none =>
    by_cases hm : s.m ∈ st.WebhookHandlerPath
    · rw [setup_of_dup_m s st he hm, setup_of_dup_m s st' he (hp ▸ hm)]
      exact ⟨rfl, hp, by simp [hi]⟩
    · by_cases hv : s.v ∈ st.WebhookHandlerPath ++ [s.m]
      · rw [setup_of_dup_v s st he hm hv, setup_of_dup_v s st' he (hp ▸ hm) (hp ▸ hv)]
        exact ⟨rfl, by simp [hp], by simp [hi]⟩
      · rw [setup_of_fresh s st he hm hv, setup_of_fresh s st' he (hp ▸ hm) (hp ▸ hv)]
        exact ⟨rfl, by simp [hp], by simp [hi]⟩

/-! ## The inner loop -/

theorem setupList_cons_nil (s : Handler) (rest : List Handler) (st : State)
    (h : (setup s st).1 = Outcome.nil) :
    setupList (s :: rest) st = setupList rest (setup s st).2 := by
  rcases hr : setup s st with ⟨o, st1⟩
  rw [hr] at h
  simp only at h
  subst h
  simp [setupList, hr]

theorem setupList_cons_stop (s : Handler) (rest : List Handler) (st : State)
    (h : (setup s st).1 ≠ Outcome.nil) :
    setupList (s :: rest) st = setup s st := by
  rcases hr : setup s st with ⟨o, st1⟩
  rw [hr] at h
  cases o with
  | nil => exact absurd rfl h
  | error msg => simp [setupList, hr]
  | panicked msg => simp [setupList, hr]

theorem setupList_agree (hs : List Handler) :
    ∀ st st' : State, SameCore st st' → Agree (setupList hs st) (setupList hs st') := by
  induction hs with
  | nil => intro st st' h; exact ⟨rfl, h⟩
  | cons s rest ih =>
    intro st st' h
    have ha := setup_agree s st st' h
    by_cases hn : (setup s st).1 = Outcome.nil
    · rw [setupList_cons_nil s rest st hn, setupList_cons_nil s rest st' (ha.1 ▸ hn)]
      exact ih _ _ ha.2
    · rw [setupList_cons_stop s rest st hn,
        setupList_cons_stop s rest st' (fun h' => hn (ha.1.trans h'))]
      exact ha

theorem setupList_append_nil (a b : List Handler) :
    ∀ st : State, (setupList a st).1 = Outcome.nil →
      setupList (a ++ b) st = setupList b (setupList a st).2 := by
  induction a with
  | nil => intro st _; rfl
  | cons s rest ih =>
    intro st h
    by_cases hn : (setup s st).1 = Outcome.nil
    · rw [setupList_cons_nil s rest st hn] at h ⊢
      rw [List.cons_append, setupList_cons_nil s (rest ++ b) st hn]
      exact ih _ h
    · rw [setupList_cons_stop s rest st hn] at h
      exact absurd h hn

theorem setupList_append_stop (a b : List Handler) :
    ∀ st : State, (setupList a st).1 ≠ Outcome.nil →
      setupList (a ++ b) st = setupList a st := by
  induction a with
  | nil => intro st h; exact absurd rfl h
  | cons s rest ih =>
    intro st h
    by_cases hn : (setup s st).1 = Outcome.nil
    · rw [setupList_cons_nil s rest st hn] at h ⊢
      rw [List.cons_append, setupList_cons_nil s (rest ++ b) st hn]
      exact ih _ h
    · rw [List.cons_append, setupList_cons_stop s rest st hn,
        setupList_cons_stop s (rest ++ b) st hn]

/-- A run of the loop that ends with nil called every handler, none returned an
error, and the paths were added in order, each of them new. -/
theorem setupList_nil_inv (hs : List Handler) :
    ∀ st : State, (setupList hs st).1 = Outcome.nil →
      (setupList hs st).2.WebhookHandlerPath
          = st.WebhookHandlerPath ++ hs.flatMap Handler.paths ∧
        (setupList hs st).2.invoked = st.invoked ++ hs ∧
        (∀ s ∈ hs, s.err = none) ∧
        (st.WebhookHandlerPath.Nodup → (setupList hs st).2.WebhookHandlerPath.Nodup) := by
  induction hs with
  | nil => intro st _; simp [setupList]
  | cons s rest ih =>
    intro st h
    by_cases hn : (setup s st).1 = Outcome.nil
    · rw [setupList_cons_nil s rest st hn] at h ⊢
      obtain ⟨he, hm, hv, hp, hi⟩ := setup_nil_inv s st hn
      obtain ⟨ihp, ihi, ihe, ihd⟩ := ih _ h
      refine ⟨?_, ?_, ?_, ?_⟩
      · rw [ihp, hp]; simp [Handler.paths]
      · rw [ihi, hi]; simp
      · intro x hx
        rcases List.mem_cons.1 hx with rfl | hx
        · exact he
        · exact ihe x hx
      · intro hd
        apply ihd
        rw [hp]
        have h1 : (st.WebhookHandlerPath ++ [s.m]).Nodup := by
          rw [List.nodup_append]
          refine ⟨hd, List.nodup_singleton _, ?_⟩
          intro a ha hb
          simp at hb
          subst hb
          exact hm ha
        have h2 : (st.WebhookHandlerPath ++ [s.m] ++ [s.v]).Nodup := by
          rw [List.nodup_append]
          refine ⟨h1, List.nodup_singleton _, ?_⟩
          intro a ha hb
          simp only [List.mem_singleton] at hb
          subst hb
          exact hv ha
        simpa using h2
    · rw [setupList_cons_stop s rest st hn] at h
      exact absurd h hn


/-- A run of the loop that does not end with nil stopped at one handler: those
before it ran through, those after it were never reached. -/
theorem setupList_stop_inv (hs : List Handler) :
    ∀ st : State, (setupList hs st).1 ≠ Outcome.nil →
      ∃ pre s post, hs = pre ++ s :: post ∧ (setupList pre st).1 = Outcome.nil ∧
        (setup s (setupList pre st).2).1 ≠ Outcome.nil ∧
        setupList hs st = setup s (setupList pre st).2 := by
  induction hs with
  | nil => intro st h; exact absurd rfl h
  | cons s rest ih =>
    intro st h
    by_cases hn : (setup s st).1 = Outcome.nil
    · rw [setupList_cons_nil s rest st hn] at h
      obtain ⟨pre, x, post, hd, hpre, hx, hrun⟩ := ih _ h
      refine ⟨s :: pre, x, post, by simp [hd], ?_, ?_, ?_⟩
      · rw [setupList_cons_nil s pre st hn]; exact hpre
      · rw [setupList_cons_nil s pre st hn]; exact hx
      · rw [setupList_cons_nil s rest st hn, setupList_cons_nil s pre st hn]; exact hrun
    · refine ⟨[], s, rest, rfl, rfl, hn, ?_⟩
      rw [setupList_cons_stop s rest st hn]
      rfl

/-- The first repeated path stops the loop: when no handler returns an error and
the paths already mounted followed by the returned ones hold a repetition, the
loop panics at the first returned path that is already there. -/
theorem setupList_first_repeat (hs : List Handler) :
    ∀ st : State, (∀ s ∈ hs, s.err = none) → st.WebhookHandlerPath.Nodup →
      ¬ (st.WebhookHandlerPath ++ hs.flatMap Handler.paths).Nodup →
      ∃ n q, (hs.flatMap Handler.paths)[n]? = some q ∧
        q ∈ st.WebhookHandlerPath ++ (hs.flatMap Handler.paths).take n ∧
        (st.WebhookHandlerPath ++ (hs.flatMap Handler.paths).take n).Nodup ∧
        (setupList hs st).1 = Outcome.panicked ("webhook handler path " ++ q ++ " duplicated") ∧
        (setupList hs st).2.WebhookHandlerPath
          = st.WebhookHandlerPath ++ (hs.flatMap Handler.paths).take n ∧
        (setupList hs st).2.invoked = st.invoked ++ hs.take (n / 2 + 1) := by
  induction hs with
  | nil => intro st _ hd hnd; simp at hnd; exact absurd hd hnd
  | cons s rest ih =>
    intro st he hd hnd
    have hes : s.err = none := he s (List.mem_cons_self _ _)
    by_cases hm : s.m ∈ st.WebhookHandlerPath
    · refine ⟨0, s.m, by simp [Handler.paths], by simpa using hm, by simpa using hd, ?_⟩
      have hn : (setup s st).1 ≠ Outcome.nil := by rw [setup_of_dup_m s st hes hm]; simp
      rw [setupList_cons_stop s rest st hn, setup_of_dup_m s st hes hm]
      simp
    · have h1 : (st.WebhookHandlerPath ++ [s.m]).Nodup := by
        rw [List.nodup_append]
        refine ⟨hd, List.nodup_singleton _, ?_⟩
        intro a ha hb
        simp only [List.mem_singleton] at hb
        subst hb
        exact hm ha
      by_cases hv : s.v ∈ st.WebhookHandlerPath ++ [s.m]
      · refine ⟨1, s.v, by simp [Handler.paths], by simpa [Handler.paths] using hv,
          by simpa [Handler.paths] using h1, ?_⟩
        have hn : (setup s st).1 ≠ Outcome.nil := by rw [setup_of_dup_v s st hes hm hv]; simp
        rw [setupList_cons_stop s rest st hn, setup_of_dup_v s st hes hm hv]
        simp [Handler.paths]
      · have hn : (setup s st).1 = Outcome.nil := by rw [setup_of_fresh s st hes hm hv]
        have h2 : (st.WebhookHandlerPath ++ [s.m, s.v]).Nodup := by
          have h3 : (st.WebhookHandlerPath ++ [s.m] ++ [s.v]).Nodup := by
            rw [List.nodup_append]
            refine ⟨h1, List.nodup_singleton _, ?_⟩
            intro a ha hb
            simp only [List.mem_singleton] at hb
            subst hb
            exact hv ha
          simpa using h3
        have hst : (setup s st).2.WebhookHandlerPath = st.WebhookHandlerPath ++ [s.m, s.v] := by
          rw [setup_of_fresh s st hes hm hv]
        have hsi : (setup s st).2.invoked = st.invoked ++ [s] := setup_invoked s st
        obtain ⟨n, q, hq, hmem, hnod, ho, hp, hi⟩ :=
          ih (setup s st).2 (fun x hx => he x (List.mem_cons_of_mem _ hx))
            (by rw [hst]; exact h2)
            (by rw [hst]; simpa [Handler.paths] using hnd)
        refine ⟨n + 2, q, by simpa [Handler.paths] using hq, ?_, ?_, ?_, ?_, ?_⟩
        · rw [hst] at hmem; simpa [Handler.paths] using hmem
        · rw [hst] at hnod; simpa [Handler.paths] using hnod
        · rw [setupList_cons_nil s rest st hn]; exact ho
        · rw [setupList_cons_nil s rest st hn, hp, hst]; simp [Handler.paths]
        · rw [setupList_cons_nil s rest st hn, hi, hsi]
          have : (n + 2) / 2 + 1 = (n / 2 + 1) + 1 := by omega
          rw [this, List.take_succ_cons]
          simp

/-! ## The two outer loops -/

theorem setupIndependent_agree (g : String → List String → Bool) (c : Config)
    (ws : List (String × Handler)) :
    ∀ st st' : State, SameCore st st' →
      Agree (setupIndependent g c ws st)
        (setupList ((ws.filter (fun e => !g e.1 c.DisabledWebhooks)).map (fun e => e.2)) st') := by
  induction ws with
  | nil => intro st st' h; exact ⟨rfl, h⟩
  | cons e rest ih =>
    intro st st' h
    obtain ⟨name, s⟩ := e
    by_cases hg : g name c.DisabledWebhooks = true
    · simp only [setupIndependent, hg, if_true, List.filter_cons, Bool.not_true]
      exact ih _ _ ⟨h.1, h.2⟩
    · have hg' : g name c.DisabledWebhooks = false := by simpa using hg
      have ha := setup_agree s st st' h
      simp only [List.filter_cons, hg', Bool.not_false, if_true, List.map_cons]
      by_cases hn : (setup s st).1 = Outcome.nil
      · rw [setupList_cons_nil s _ st' (ha.1 ▸ hn)]
        have : setupIndependent g c ((name, s) :: rest) st
            = setupIndependent g c rest (setup s st).2 := by
          rcases hr : setup s st with ⟨o, st1⟩
          rw [hr] at hn
          simp only at hn
          subst hn
          simp [setupIndependent, hg', hr]
        rw [this]
        exact ih _ _ ha.2
      · rw [setupList_cons_stop s _ st' (fun h' => hn (ha.1.trans h'))]
        have : setupIndependent g c ((name, s) :: rest) st = setup s st := by
          rcases hr : setup s st with ⟨o, st1⟩
          rw [hr] at hn
          cases o with
          | nil => exact absurd rfl hn
          | error msg => simp [setupIndependent, hg', hr]
          | panicked msg => simp [setupIndependent, hg', hr]
        rw [this]
        exact ha

theorem setupControllers_agree (g : String → List String → Bool) (c : Config)
    (ws : List (String × Slice Handler)) :
    ∀ st st' : State, SameCore st st' →
      Agree (setupControllers g c ws st)
        (setupList ((ws.filter (fun e => g e.1 c.Controllers)).flatMap
          (fun e => e.2.toList)) st') := by
  induction ws with
  | nil => intro st st' h; exact ⟨rfl, h⟩
  | cons e rest ih =>
    intro st st' h
    obtain ⟨name, list⟩ := e
    by_cases hg : g name c.Controllers = true
    · have ha := setupList_agree list.toList st st' h
      simp only [List.filter_cons, hg, if_true, List.flatMap_cons]
      by_cases hn : (setupList list.toList st).1 = Outcome.nil
      · rw [setupList_append_nil _ _ st' (ha.1 ▸ hn)]
        have : setupControllers g c ((name, list) :: rest) st
            = setupControllers g c rest (setupList list.toList st).2 := by
          rcases hr : setupList list.toList st with ⟨o, st1⟩
          rw [hr] at hn
          simp only at hn
          subst hn
          simp [setupControllers, hg, hr]
        rw [this]
        exact ih _ _ ha.2
      · rw [setupList_append_stop _ _ st' (fun h' => hn (ha.1.trans h'))]
        have : setupControllers g c ((name, list) :: rest) st = setupList list.toList st := by
          rcases hr : setupList list.toList st with ⟨o, st1⟩
          rw [hr] at hn
          cases o with
          | nil => exact absurd rfl hn
          | error msg => simp [setupControllers, hg, hr]
          | panicked msg => simp [setupControllers, hg, hr]
        rw [this]
        exact ha
    · have hg' : g name c.Controllers = false := by simpa using hg
      simp only [setupControllers, hg', Bool.not_false, if_true, List.filter_cons]
      exact ih _ _ ⟨h.1, h.2⟩

/-- The bootstrap is the inner loop run over the handlers that pass their gate:
same outcome, same mounted paths, same invocations. -/
theorem SetupWithManager_agree (g1 g2 : String → List String → Bool) (c : Config)
    (iw : GoMap Handler) (cw : Option (GoMap (Slice Handler))) (st : State) :
    Agree (SetupWithManager g1 g2 c iw cw st)
      (setupList (enabledHandlers g1 g2 c iw cw) st) := by
  have ha := setupIndependent_agree g1 c iw st st ⟨rfl, rfl⟩
  unfold enabledHandlers
  by_cases hn : (setupIndependent g1 c iw st).1 = Outcome.nil
  · rw [setupList_append_nil _ _ st (ha.1 ▸ hn)]
    have : SetupWithManager g1 g2 c iw cw st
        = setupControllers g2 c (rangeMap cw) (setupIndependent g1 c iw st).2 := by
      rcases hr : setupIndependent g1 c iw st with ⟨o, st1⟩
      rw [hr] at hn
      simp only at hn
      subst hn
      simp [SetupWithManager, hr]
    rw [this]
    exact setupControllers_agree g2 c _ _ _ ha.2
  · rw [setupList_append_stop _ _ st (fun h' => hn (ha.1.trans h'))]
    have : SetupWithManager g1 g2 c iw cw st = setupIndependent g1 c iw st := by
      rcases hr : setupIndependent g1 c iw st with ⟨o, st1⟩
      rw [hr] at hn
      cases o with
      | nil => exact absurd rfl hn
      | error msg => simp [SetupWithManager, hr]
      | panicked msg => simp [SetupWithManager, hr]
    rw [this]
    exact ha


/-- A loop over handlers without error whose paths are all new ends with nil. -/
theorem setupList_nil_of_nodup (hs : List Handler) :
    ∀ st : State, (∀ s ∈ hs, s.err = none) →
      (st.WebhookHandlerPath ++ hs.flatMap Handler.paths).Nodup →
      (setupList hs st).1 = Outcome.nil := by
  induction hs with
  | nil => intro st _ _; rfl
  | cons s rest ih =>
    intro st he hd
    have hes : s.err = none := he s (List.mem_cons_self _ _)
    have hd' : (st.WebhookHandlerPath ++ [s.m, s.v] ++ rest.flatMap Handler.paths).Nodup := by
      simpa [Handler.paths] using hd
    have h2 : (st.WebhookHandlerPath ++ [s.m, s.v]).Nodup := (List.nodup_append.1 hd').1
    have h3 : (st.WebhookHandlerPath ++ [s.m] ++ [s.v]).Nodup := by simpa using h2
    have hv : s.v ∉ st.WebhookHandlerPath ++ [s.m] := by
      intro hv
      exact (List.nodup_append.1 h3).2.2 hv (List.mem_singleton_self _)
    have hm : s.m ∉ st.WebhookHandlerPath := by
      intro hm
      exact (List.nodup_append.1 (List.nodup_append.1 h3).1).2.2 hm (List.mem_singleton_self _)
    have hn : (setup s st).1 = Outcome.nil := by rw [setup_of_fresh s st hes hm hv]
    rw [setupList_cons_nil s rest st hn]
    apply ih _ (fun x hx => he x (List.mem_cons_of_mem _ hx))
    rw [setup_of_fresh s st hes hm hv]
    exact hd'

/-! ## Properties of the bootstrap -/

/-- C1, as stated, fails: a single independent handler that returns an empty
mutate path and a validate path makes `SetupWithManager` return nil with the
empty string mounted, and with two members for one non-empty path returned. -/
theorem C1_counterexample :
    (SetupWithManager listed listed ⟨[], []⟩
        [("pod", ⟨"", "/validate--v1-pod", none⟩)] none State.init).1 = Outcome.nil ∧
      (SetupWithManager listed listed ⟨[], []⟩
        [("pod", ⟨"", "/validate--v1-pod", none⟩)] none State.init).2.invoked
        = [⟨"", "/validate--v1-pod", none⟩] ∧
      (SetupWithManager listed listed ⟨[], []⟩
        [("pod", ⟨"", "/validate--v1-pod", none⟩)] none State.init).2.WebhookHandlerPath
        = ["", "/validate--v1-pod"] ∧
      ¬ ("" ∉ (SetupWithManager listed listed ⟨[], []⟩
            [("pod", ⟨"", "/validate--v1-pod", none⟩)] none State.init).2.WebhookHandlerPath ∧
          (SetupWithManager listed listed ⟨[], []⟩
            [("pod", ⟨"", "/validate--v1-pod", none⟩)] none State.init).2.WebhookHandlerPath.length
            = ((Handler.paths ⟨"", "/validate--v1-pod", none⟩).filter (fun p => p ≠ "")).length) := by
  decide

/-- C1, amended: when `SetupWithManager` starts with an empty
`WebhookHandlerPath` and returns nil, `WebhookHandlerPath` holds exactly the
mutate and validate paths returned by the invoked handlers, empty or not, in
the order they were returned and each once; its size is twice the number of
invoked handlers; the empty string is a member exactly when an invoked handler
returned it. -/
theorem C1_mounted_paths_of_nil_run (g1 g2 : String → List String → Bool) (c : Config)
    (iw : GoMap Handler) (cw : Option (GoMap (Slice Handler))) (st : State)
    (hp : st.WebhookHandlerPath = []) (hi : st.invoked = [])
    (h : (SetupWithManager g1 g2 c iw cw st).1 = Outcome.nil) :
    (SetupWithManager g1 g2 c iw cw st).2.WebhookHandlerPath
        = (SetupWithManager g1 g2 c iw cw st).2.invoked.flatMap Handler.paths ∧
      (∀ p, p ∈ (SetupWithManager g1 g2 c iw cw st).2.WebhookHandlerPath ↔
        ∃ s ∈ (SetupWithManager g1 g2 c iw cw st).2.invoked, p = s.m ∨ p = s.v) ∧
      (SetupWithManager g1 g2 c iw cw st).2.WebhookHandlerPath.Nodup ∧
      (SetupWithManager g1 g2 c iw cw st).2.WebhookHandlerPath.length
        = 2 * (SetupWithManager g1 g2 c iw cw st).2.invoked.length ∧
      ("" ∈ (SetupWithManager g1 g2 c iw cw st).2.WebhookHandlerPath ↔
        ∃ s ∈ (SetupWithManager g1 g2 c iw cw st).2.invoked, s.m = "" ∨ s.v = "") := by
  obtain ⟨ho, hwp, hinv⟩ := SetupWithManager_agree g1 g2 c iw cw st
  obtain ⟨np, ni, _, nd⟩ := setupList_nil_inv (enabledHandlers g1 g2 c iw cw) st (ho ▸ h)
  rw [hp, List.nil_append] at np
  rw [hi, List.nil_append] at ni
  have e1 : (SetupWithManager g1 g2 c iw cw st).2.WebhookHandlerPath
      = (SetupWithManager g1 g2 c iw cw st).2.invoked.flatMap Handler.paths := by
    rw [hwp, hinv, np, ni]
  have e2 : ∀ p, p ∈ (SetupWithManager g1 g2 c iw cw st).2.WebhookHandlerPath ↔
      ∃ s ∈ (SetupWithManager g1 g2 c iw cw st).2.invoked, p = s.m ∨ p = s.v := by
    intro p
    rw [e1]
    simp [List.mem_flatMap, Handler.paths]
  refine ⟨e1, e2, ?_, ?_, ?_⟩
  · rw [hwp]; exact nd (hp ▸ List.nodup_nil)
  · rw [e1]
    generalize (SetupWithManager g1 g2 c iw cw st).2.invoked = l
    induction l with
    | nil => rfl
    | cons a l ih => simp [List.flatMap_cons, Handler.paths] at ih ⊢; omega
  · rw [e2]
    constructor
    · rintro ⟨s, hs, h'⟩; exact ⟨s, hs, h'.imp Eq.symm Eq.symm⟩
    · rintro ⟨s, hs, h'⟩; exact ⟨s, hs, h'.imp Eq.symm Eq.symm⟩

/-- Witness of C1: the pod handler with both paths. -/
theorem C1_mounted_paths_of_nil_run_witness :
    (SetupWithManager listed listed ⟨[], []⟩
        [("pod", ⟨"/mutate--v1-pod", "/validate--v1-pod", none⟩)] none State.init).2.WebhookHandlerPath
      = (SetupWithManager listed listed ⟨[], []⟩
        [("pod", ⟨"/mutate--v1-pod", "/validate--v1-pod", none⟩)] none
        State.init).2.invoked.flatMap Handler.paths :=
  (C1_mounted_paths_of_nil_run listed listed ⟨[], []⟩
    [("pod", ⟨"/mutate--v1-pod", "/validate--v1-pod", none⟩)] none State.init
    rfl rfl (by decide)).1

/-- C2, as stated, fails: two enabled handlers with an empty mutate path, no
error and the distinct validate paths `/v1` and `/v2` make `SetupWithManager`
panic on the empty path at the second handler. -/
theorem C2_counterexample :
    (SetupWithManager listed listed ⟨[], ["nodepool"]⟩ []
        (some [("nodepool", some [⟨"", "/v1", none⟩, ⟨"", "/v2", none⟩])]) State.init).1
      = Outcome.panicked "webhook handler path  duplicated" ∧
    (SetupWithManager listed listed ⟨[], ["nodepool"]⟩ []
        (some [("nodepool", some [⟨"", "/v1", none⟩, ⟨"", "/v2", none⟩])]) State.init).1
      ≠ Outcome.nil := by
  decide

/-- C2, amended: the empty path is checked for duplication like any other.
When the first two handlers that pass their gate each return an empty mutate
path, no error, and two distinct non-empty validate paths, `SetupWithManager`
started with an empty `WebhookHandlerPath` invokes both and panics at the second
with `webhook handler path  duplicated`; `WebhookHandlerPath` then holds the
empty string and the validate path of the first handler. -/
theorem C2_empty_path_is_checked (g1 g2 : String → List String → Bool) (c : Config)
    (iw : GoMap Handler) (cw : Option (GoMap (Slice Handler))) (st : State)
    (a b : Handler) (rest : List Handler)
    (hp : st.WebhookHandlerPath = [])
    (hen : enabledHandlers g1 g2 c iw cw = a :: b :: rest)
    (ham : a.m = "") (hbm : b.m = "") (hae : a.err = none) (hbe : b.err = none)
    (hav : a.v ≠ "") (_hbv : b.v ≠ "") (_hne : a.v ≠ b.v) :
    (SetupWithManager g1 g2 c iw cw st).1
        = Outcome.panicked "webhook handler path  duplicated" ∧
      (SetupWithManager g1 g2 c iw cw st).2.invoked = st.invoked ++ [a, b] ∧
      (SetupWithManager g1 g2 c iw cw st).2.WebhookHandlerPath = ["", a.v] := by
  obtain ⟨ho, hwp, hinv⟩ := SetupWithManager_agree g1 g2 c iw cw st
  rw [ho, hwp, hinv, hen]
  have hma : a.m ∉ st.WebhookHandlerPath := by rw [hp]; simp
  have hva : a.v ∉ st.WebhookHandlerPath ++ [a.m] := by rw [hp, ham]; simpa using hav
  have hfa := setup_of_fresh a st hae hma hva
  have hna : (setup a st).1 = Outcome.nil := by rw [hfa]
  rw [setupList_cons_nil a (b :: rest) st hna]
  have hmb : b.m ∈ (setup a st).2.WebhookHandlerPath := by rw [hfa, hbm, ham]; simp
  have hdb := setup_of_dup_m b (setup a st).2 hbe hmb
  have hnb : (setup b (setup a st).2).1 ≠ Outcome.nil := by rw [hdb]; simp
  rw [setupList_cons_stop b rest _ hnb, hdb]
  refine ⟨by simp [hbm], ?_, ?_⟩
  · simp [hfa]
  · simp [hfa, hp, ham]

/-- Witness of C2: an independent pure validator followed by a controller one. -/
theorem C2_empty_path_is_checked_witness :
    (SetupWithManager listed listed ⟨[], ["raven"]⟩ [("pod", ⟨"", "/validate--v1-pod", none⟩)]
        (some [("raven", some [⟨"", "/validate-raven-openyurt-io-v1alpha1-gateway", none⟩])])
        State.init).1
      = Outcome.panicked "webhook handler path  duplicated" :=
  (C2_empty_path_is_checked listed listed ⟨[], ["raven"]⟩
    [("pod", ⟨"", "/validate--v1-pod", none⟩)]
    (some [("raven", some [⟨"", "/validate-raven-openyurt-io-v1alpha1-gateway", none⟩])])
    State.init ⟨"", "/validate--v1-pod", none⟩
    ⟨"", "/validate-raven-openyurt-io-v1alpha1-gateway", none⟩ []
    rfl (by decide) rfl rfl rfl rfl (by decide) (by decide) (by decide)).1


/-- C3, as stated, fails.  First input: two handlers that both return `/a` and
`/b`; they share the validate path `/b`, but the panic names `/a`.  Second
input: the first and the third handler share `/b`, but the panic comes at the
second handler, which shares `/a` with the first, and the third is never
invoked. -/
theorem C3_counterexample :
    ((SetupWithManager listed listed ⟨[], ["nodepool"]⟩ []
          (some [("nodepool", some [⟨"/a", "/b", none⟩, ⟨"/a", "/b", none⟩])]) State.init).1
        = Outcome.panicked "webhook handler path /a duplicated" ∧
      (SetupWithManager listed listed ⟨[], ["nodepool"]⟩ []
          (some [("nodepool", some [⟨"/a", "/b", none⟩, ⟨"/a", "/b", none⟩])]) State.init).1
        ≠ Outcome.panicked "webhook handler path /b duplicated") ∧
    ((SetupWithManager listed listed ⟨[], ["nodepool"]⟩ []
          (some [("nodepool", some [⟨"/a", "/b", none⟩, ⟨"/a", "/c", none⟩,
            ⟨"/b", "/d", none⟩])]) State.init).1
        = Outcome.panicked "webhook handler path /a duplicated" ∧
      (SetupWithManager listed listed ⟨[], ["nodepool"]⟩ []
          (some [("nodepool", some [⟨"/a", "/b", none⟩, ⟨"/a", "/c", none⟩,
            ⟨"/b", "/d", none⟩])]) State.init).2.invoked
        = [⟨"/a", "/b", none⟩, ⟨"/a", "/c", none⟩]) := by
  decide

/-- C3, amended: let the handlers that pass their gate be
`pre ++ a :: mid ++ b :: post`, let `a` and `b` return a common path `p`, and
let no handler up to `b` return an error.  Started with an empty
`WebhookHandlerPath`, `SetupWithManager` does not return: it panics with
`webhook handler path q duplicated`, where `q` is the first returned path (in
the order mutate, validate of each handler in turn) that repeats an earlier
one; the handler that returned `q` is `b` or an earlier one, it is the last one
invoked, and `WebhookHandlerPath` holds the paths returned before `q`.  When
the paths returned before `b` are pairwise distinct and the mutate path of `b`
is `p` or is new, the panic names `p` and comes at `b`. -/
theorem C3_duplicate_path_panics (g1 g2 : String → List String → Bool) (c : Config)
    (iw : GoMap Handler) (cw : Option (GoMap (Slice Handler))) (st : State)
    (pre mid post : List Handler) (a b : Handler) (p : String)
    (hp : st.WebhookHandlerPath = []) (hi : st.invoked = [])
    (hen : enabledHandlers g1 g2 c iw cw = pre ++ a :: mid ++ b :: post)
    (hpa : p ∈ a.paths) (hpb : p ∈ b.paths)
    (herr : ∀ s ∈ pre ++ a :: mid ++ [b], s.err = none) :
    (∃ n q, n / 2 ≤ pre.length + mid.length + 1 ∧
        ((enabledHandlers g1 g2 c iw cw).flatMap Handler.paths)[n]? = some q ∧
        q ∈ ((enabledHandlers g1 g2 c iw cw).flatMap Handler.paths).take n ∧
        (((enabledHandlers g1 g2 c iw cw).flatMap Handler.paths).take n).Nodup ∧
        (SetupWithManager g1 g2 c iw cw st).1
          = Outcome.panicked ("webhook handler path " ++ q ++ " duplicated") ∧
        (SetupWithManager g1 g2 c iw cw st).2.invoked
          = (enabledHandlers g1 g2 c iw cw).take (n / 2 + 1) ∧
        (SetupWithManager g1 g2 c iw cw st).2.WebhookHandlerPath
          = ((enabledHandlers g1 g2 c iw cw).flatMap Handler.paths).take n) ∧
      (((pre ++ a :: mid).flatMap Handler.paths).Nodup →
        (b.m = p ∨ b.m ∉ (pre ++ a :: mid).flatMap Handler.paths) →
        (SetupWithManager g1 g2 c iw cw st).1
          = Outcome.panicked ("webhook handler path " ++ p ++ " duplicated") ∧
        (SetupWithManager g1 g2 c iw cw st).2.invoked = pre ++ a :: mid ++ [b]) := by
  obtain ⟨ho, hwp, hinv⟩ := SetupWithManager_agree g1 g2 c iw cw st
  rw [ho, hwp, hinv, hen]
  have hsplit : pre ++ a :: mid ++ b :: post = (pre ++ a :: mid ++ [b]) ++ post := by simp
  have hbe : b.err = none := herr b (by simp)
  have hpin : p ∈ (pre ++ a :: mid).flatMap Handler.paths := by
    simp only [List.mem_flatMap]
    exact ⟨a, by simp, hpa⟩
  constructor
  · -- the general part: the first repeated path stops the run
    have hnd : ¬ (st.WebhookHandlerPath
        ++ (pre ++ a :: mid ++ [b]).flatMap Handler.paths).Nodup := by
      rw [hp, List.nil_append]
      intro hd
      have hd' : ((pre ++ a :: mid).flatMap Handler.paths ++ b.paths).Nodup := by
        simpa [List.flatMap_append] using hd
      exact (List.nodup_append.1 hd').2.2 hpin hpb
    obtain ⟨n, q, hq, hmem, hnod, hout, hpaths, hcalls⟩ :=
      setupList_first_repeat (pre ++ a :: mid ++ [b]) st herr (hp ▸ List.nodup_nil) hnd
    rw [hp, List.nil_append] at hmem hnod hpaths
    rw [hi, List.nil_append] at hcalls
    have hlen : ((pre ++ a :: mid ++ [b]).flatMap Handler.paths).length
        = 2 * (pre.length + mid.length + 1) + 2 := by
      have : ∀ l : List Handler, (l.flatMap Handler.paths).length = 2 * l.length := by
        intro l
        induction l with
        | nil => rfl
        | cons x l ih => simp [List.flatMap_cons, Handler.paths] at ih ⊢; omega
      rw [this]; simp; omega
    have hn : n < ((pre ++ a :: mid ++ [b]).flatMap Handler.paths).length := by
      by_contra hcon
      rw [List.getElem?_eq_none (Nat.le_of_not_lt hcon)] at hq
      exact absurd hq (by simp)
    have hstop : (setupList (pre ++ a :: mid ++ [b]) st).1 ≠ Outcome.nil := by
      rw [hout]; simp
    have htake : ((pre ++ a :: mid ++ b :: post).flatMap Handler.paths).take n
        = ((pre ++ a :: mid ++ [b]).flatMap Handler.paths).take n := by
      rw [hsplit, List.flatMap_append, List.take_append_of_le_length (Nat.le_of_lt hn)]
    refine ⟨n, q, by omega, ?_, ?_, ?_, ?_, ?_, ?_⟩
    · rw [hsplit, List.flatMap_append, List.getElem?_append_left hn]; exact hq
    · rw [htake]; exact hmem
    · rw [htake]; exact hnod
    · rw [hsplit, setupList_append_stop _ _ st hstop]; exact hout
    · have hk : n / 2 + 1 ≤ (pre ++ a :: mid ++ [b]).length := by
        simp only [List.length_append, List.length_cons, List.length_nil]; omega
      rw [hsplit, setupList_append_stop _ _ st hstop, hcalls]
      exact (List.take_append_of_le_length hk).symm
    · rw [hsplit, setupList_append_stop _ _ st hstop, hpaths, ← hsplit, htake]
  · -- the special part: nothing repeats before `b`
    intro hnod hbm
    have hrun : (setupList (pre ++ a :: mid) st).1 = Outcome.nil :=
      setupList_nil_of_nodup _ st (fun s hs => herr s (by simp at hs ⊢; tauto))
        (by rw [hp, List.nil_append]; exact hnod)
    obtain ⟨np, ni, _, _⟩ := setupList_nil_inv _ st hrun
    rw [hp, List.nil_append] at np
    rw [hi, List.nil_append] at ni
    have hsplit2 : pre ++ a :: mid ++ b :: post = (pre ++ a :: mid) ++ (b :: post) := by simp
    rw [hsplit2, setupList_append_nil _ _ st hrun]
    by_cases hm : b.m ∈ (setupList (pre ++ a :: mid) st).2.WebhookHandlerPath
    · have hbp : b.m = p := by
        rcases hbm with h | h
        · exact h
        · exact absurd (np ▸ hm) h
      have hd := setup_of_dup_m b _ hbe hm
      have hstop : (setup b (setupList (pre ++ a :: mid) st).2).1 ≠ Outcome.nil := by
        rw [hd]; simp
      rw [setupList_cons_stop b post _ hstop, hd]
      exact ⟨by simp [hbp], by simp [ni]⟩
    · have hbv : b.v = p := by
        simp only [Handler.paths, List.mem_cons, List.mem_singleton, List.not_mem_nil,
          or_false] at hpb
        rcases hpb with h | h
        · exact absurd (np ▸ (h ▸ hpin)) hm
        · exact h.symm
      have hv : b.v ∈ (setupList (pre ++ a :: mid) st).2.WebhookHandlerPath ++ [b.m] := by
        rw [hbv, np]; exact List.mem_append_left _ hpin
      have hd := setup_of_dup_v b _ hbe hm hv
      have hstop : (setup b (setupList (pre ++ a :: mid) st).2).1 ≠ Outcome.nil := by
        rw [hd]; simp
      rw [setupList_cons_stop b post _ hstop, hd]
      exact ⟨by simp [hbv], by simp [ni]⟩


/-- Witness of C3: the `v1beta1` node pool handler registered twice under the
controller `nodepool`. -/
theorem C3_duplicate_path_panics_witness :
    (SetupWithManager listed listed ⟨[], ["nodepool"]⟩ []
        (some [("nodepool", some
          [⟨"/mutate-apps-openyurt-io-v1beta1-nodepool",
              "/validate-apps-openyurt-io-v1beta1-nodepool", none⟩,
            ⟨"/mutate-apps-openyurt-io-v1beta1-nodepool",
              "/validate-apps-openyurt-io-v1beta1-nodepool", none⟩])]) State.init).1
      = Outcome.panicked ("webhook handler path "
          ++ "/mutate-apps-openyurt-io-v1beta1-nodepool" ++ " duplicated") :=
  ((C3_duplicate_path_panics listed listed ⟨[], ["nodepool"]⟩ []
    (some [("nodepool", some
      [⟨"/mutate-apps-openyurt-io-v1beta1-nodepool",
          "/validate-apps-openyurt-io-v1beta1-nodepool", none⟩,
        ⟨"/mutate-apps-openyurt-io-v1beta1-nodepool",
          "/validate-apps-openyurt-io-v1beta1-nodepool", none⟩])]) State.init
    [] [] []
    ⟨"/mutate-apps-openyurt-io-v1beta1-nodepool",
      "/validate-apps-openyurt-io-v1beta1-nodepool", none⟩
    ⟨"/mutate-apps-openyurt-io-v1beta1-nodepool",
      "/validate-apps-openyurt-io-v1beta1-nodepool", none⟩
    "/mutate-apps-openyurt-io-v1beta1-nodepool"
    rfl rfl (by decide) (by decide) (by decide) (by decide)).2 (by decide) (Or.inl rfl)).1

/-- C4: in a run of `SetupWithManager` that returns nil, the handlers invoked
are, in order and each once, the independent handlers whose name
`IsWebhookDisabled` does not disable, then the handlers in the lists of the
controllers that `IsControllerEnabled` enables.  So an independent handler
under a name that is not disabled is invoked, every handler of an enabled
controller is invoked, every invoked handler passed its gate, and the paths
added are those of the invoked handlers: a denied handler adds none. -/
theorem C4_gates_decide_invocation (g1 g2 : String → List String → Bool) (c : Config)
    (iw : GoMap Handler) (cw : Option (GoMap (Slice Handler))) (st : State)
    (hi : st.invoked = [])
    (h : (SetupWithManager g1 g2 c iw cw st).1 = Outcome.nil) :
    (SetupWithManager g1 g2 c iw cw st).2.invoked
        = (iw.filter (fun e => !g1 e.1 c.DisabledWebhooks)).map (fun e => e.2)
          ++ ((rangeMap cw).filter (fun e => g2 e.1 c.Controllers)).flatMap
            (fun e => e.2.toList) ∧
      (∀ name s, (name, s) ∈ iw → g1 name c.DisabledWebhooks = false →
        s ∈ (SetupWithManager g1 g2 c iw cw st).2.invoked) ∧
      (∀ name list s, (name, list) ∈ rangeMap cw → g2 name c.Controllers = true →
        s ∈ list.toList → s ∈ (SetupWithManager g1 g2 c iw cw st).2.invoked) ∧
      (∀ s ∈ (SetupWithManager g1 g2 c iw cw st).2.invoked,
        (∃ name, (name, s) ∈ iw ∧ g1 name c.DisabledWebhooks = false) ∨
        (∃ name list, (name, list) ∈ rangeMap cw ∧ g2 name c.Controllers = true ∧
          s ∈ list.toList)) ∧
      (SetupWithManager g1 g2 c iw cw st).2.WebhookHandlerPath
        = st.WebhookHandlerPath
          ++ (SetupWithManager g1 g2 c iw cw st).2.invoked.flatMap Handler.paths := by
  obtain ⟨ho, hwp, hinv⟩ := SetupWithManager_agree g1 g2 c iw cw st
  obtain ⟨np, ni, _, _⟩ := setupList_nil_inv (enabledHandlers g1 g2 c iw cw) st (ho ▸ h)
  rw [hi, List.nil_append] at ni
  have e1 : (SetupWithManager g1 g2 c iw cw st).2.invoked
      = (iw.filter (fun e => !g1 e.1 c.DisabledWebhooks)).map (fun e => e.2)
        ++ ((rangeMap cw).filter (fun e => g2 e.1 c.Controllers)).flatMap
          (fun e => e.2.toList) := by
    rw [hinv, ni]; rfl
  refine ⟨e1, ?_, ?_, ?_, ?_⟩
  · intro name s hmem hg
    rw [e1]
    apply List.mem_append_left
    exact List.mem_map.2 ⟨(name, s), List.mem_filter.2 ⟨hmem, by simp [hg]⟩, rfl⟩
  · intro name list s hmem hg hs
    rw [e1]
    apply List.mem_append_right
    exact List.mem_flatMap.2 ⟨(name, list), List.mem_filter.2 ⟨hmem, by simp [hg]⟩, hs⟩
  · intro s hs
    rw [e1] at hs
    rcases List.mem_append.1 hs with hs | hs
    · obtain ⟨e, he, rfl⟩ := List.mem_map.1 hs
      obtain ⟨hmem, hg⟩ := List.mem_filter.1 he
      exact Or.inl ⟨e.1, hmem, by simpa using hg⟩
    · obtain ⟨e, he, hse⟩ := List.mem_flatMap.1 hs
      obtain ⟨hmem, hg⟩ := List.mem_filter.1 he
      exact Or.inr ⟨e.1, e.2, hmem, by simpa using hg, hse⟩
  · rw [hwp, np, hinv, ni]

/-- Witness of C4: `pod` is disabled and `raven` is not enabled, so only the two
node pool handlers are invoked. -/
theorem C4_gates_decide_invocation_witness :
    (SetupWithManager listed listed ⟨["pod"], ["nodepool"]⟩
        [("pod", ⟨"/mutate--v1-pod", "/validate--v1-pod", none⟩)]
        (some [("raven", some [⟨"/m-gateway", "/v-gateway", none⟩]),
          ("nodepool", some [⟨"/m-a", "/v-a", none⟩, ⟨"/m-b", "/v-b", none⟩])])
        State.init).2.invoked
      = [⟨"/m-a", "/v-a", none⟩, ⟨"/m-b", "/v-b", none⟩] :=
  (C4_gates_decide_invocation listed listed ⟨["pod"], ["nodepool"]⟩
    [("pod", ⟨"/mutate--v1-pod", "/validate--v1-pod", none⟩)]
    (some [("raven", some [⟨"/m-gateway", "/v-gateway", none⟩]),
      ("nodepool", some [⟨"/m-a", "/v-a", none⟩, ⟨"/m-b", "/v-b", none⟩])])
    State.init rfl (by decide)).1.trans (by decide)

/-- C5, as stated, fails: an enabled handler that returns an error need not be
reached.  First input: two failing handlers; the error returned is the one of
the first, the second is never invoked and its error appears nowhere.  Second
input: the failing handler comes after a duplicate path; the run panics, no
error is returned and the failing handler is never invoked. -/
theorem C5_counterexample :
    ((SetupWithManager listed listed ⟨[], ["nodepool"]⟩ []
          (some [("nodepool", some [⟨"/a", "/b", some "first"⟩, ⟨"/x", "/y", some "second"⟩])])
          State.init).1
        = Outcome.error "unable to create webhook first" ∧
      (SetupWithManager listed listed ⟨[], ["nodepool"]⟩ []
          (some [("nodepool", some [⟨"/a", "/b", some "first"⟩, ⟨"/x", "/y", some "second"⟩])])
          State.init).1
        ≠ Outcome.error "unable to create webhook second" ∧
      (SetupWithManager listed listed ⟨[], ["nodepool"]⟩ []
          (some [("nodepool", some [⟨"/a", "/b", some "first"⟩, ⟨"/x", "/y", some "second"⟩])])
          State.init).2.invoked
        = [⟨"/a", "/b", some "first"⟩]) ∧
    ((SetupWithManager listed listed ⟨[], ["nodepool"]⟩ []
          (some [("nodepool", some [⟨"/a", "/b", none⟩, ⟨"/a", "/c", none⟩,
            ⟨"/x", "/y", some "boom"⟩])]) State.init).1
        = Outcome.panicked "webhook handler path /a duplicated" ∧
      (SetupWithManager listed listed ⟨[], ["nodepool"]⟩ []
          (some [("nodepool", some [⟨"/a", "/b", none⟩, ⟨"/a", "/c", none⟩,
            ⟨"/x", "/y", some "boom"⟩])]) State.init).2.invoked
        = [⟨"/a", "/b", none⟩, ⟨"/a", "/c", none⟩]) := by
  decide

/-- C5, amended: let the handlers that pass their gate be `pre ++ s :: post`,
let no handler of `pre` return an error, let the paths returned by `pre` be
pairwise distinct and not in `WebhookHandlerPath` at the start (so `s` is
reached), and let `s` return the error `e`, whatever paths come with it.  Then
`SetupWithManager` returns the error `unable to create webhook e` (the text of
the handler's error after a fixed text), invokes the handlers of `pre` and then
`s` and none of `post`, and leaves in `WebhookHandlerPath` what it held at the
start followed by the paths of `pre`: `s` adds neither of its paths. -/
theorem C5_handler_error_aborts (g1 g2 : String → List String → Bool) (c : Config)
    (iw : GoMap Handler) (cw : Option (GoMap (Slice Handler))) (st : State)
    (pre post : List Handler) (s : Handler) (e : String)
    (hen : enabledHandlers g1 g2 c iw cw = pre ++ s :: post)
    (hpre : ∀ x ∈ pre, x.err = none)
    (hnd : (st.WebhookHandlerPath ++ pre.flatMap Handler.paths).Nodup)
    (he : s.err = some e) :
    (SetupWithManager g1 g2 c iw cw st).1
        = Outcome.error ("unable to create webhook " ++ e) ∧
      (SetupWithManager g1 g2 c iw cw st).2.invoked = st.invoked ++ pre ++ [s] ∧
      (SetupWithManager g1 g2 c iw cw st).2.WebhookHandlerPath
        = st.WebhookHandlerPath ++ pre.flatMap Handler.paths := by
  obtain ⟨ho, hwp, hinv⟩ := SetupWithManager_agree g1 g2 c iw cw st
  rw [ho, hwp, hinv, hen]
  have hrun : (setupList pre st).1 = Outcome.nil := setupList_nil_of_nodup pre st hpre hnd
  obtain ⟨np, ni, _, _⟩ := setupList_nil_inv pre st hrun
  have hset := setup_of_err s (setupList pre st).2 e he
  have hstop : (setup s (setupList pre st).2).1 ≠ Outcome.nil := by rw [hset]; simp
  rw [setupList_append_nil pre (s :: post) st hrun, setupList_cons_stop s post _ hstop, hset]
  exact ⟨rfl, by simp [ni], np⟩

/-- Witness of C5: the second node pool handler fails, the gateway handler
after it is not invoked. -/
theorem C5_handler_error_aborts_witness :
    (SetupWithManager listed listed ⟨[], ["nodepool", "raven"]⟩ []
        (some [("nodepool", some [⟨"/m-a", "/v-a", none⟩, ⟨"/m-b", "/v-b", some "no kind"⟩]),
          ("raven", some [⟨"/m-gateway", "/v-gateway", none⟩])])
        State.init).1
        = Outcome.error ("unable to create webhook " ++ "no kind") ∧
      (SetupWithManager listed listed ⟨[], ["nodepool", "raven"]⟩ []
        (some [("nodepool", some [⟨"/m-a", "/v-a", none⟩, ⟨"/m-b", "/v-b", some "no kind"⟩]),
          ("raven", some [⟨"/m-gateway", "/v-gateway", none⟩])])
        State.init).2.invoked
        = State.init.invoked ++ [⟨"/m-a", "/v-a", none⟩] ++ [⟨"/m-b", "/v-b", some "no kind"⟩] ∧
      (SetupWithManager listed listed ⟨[], ["nodepool", "raven"]⟩ []
        (some [("nodepool", some [⟨"/m-a", "/v-a", none⟩, ⟨"/m-b", "/v-b", some "no kind"⟩]),
          ("raven", some [⟨"/m-gateway", "/v-gateway", none⟩])])
        State.init).2.WebhookHandlerPath
        = State.init.WebhookHandlerPath
          ++ [(⟨"/m-a", "/v-a", none⟩ : Handler)].flatMap Handler.paths :=
  C5_handler_error_aborts listed listed ⟨[], ["nodepool", "raven"]⟩ []
    (some [("nodepool", some [⟨"/m-a", "/v-a", none⟩, ⟨"/m-b", "/v-b", some "no kind"⟩]),
      ("raven", some [⟨"/m-gateway", "/v-gateway", none⟩])])
    State.init [⟨"/m-a", "/v-a", none⟩] [⟨"/m-gateway", "/v-gateway", none⟩]
    ⟨"/m-b", "/v-b", some "no kind"⟩ "no kind" (by decide) (by decide) (by decide) rfl

/-- The handlers that pass their gate are the same whatever the order in which
the two maps are ranged over. -/
theorem mem_enabledHandlers_of_perm (g1 g2 : String → List String → Bool) (c : Config)
    (iw iw' : GoMap Handler) (cw cw' : Option (GoMap (Slice Handler)))
    (hiw : iw'.Perm iw) (hcw : (rangeMap cw').Perm (rangeMap cw)) (s : Handler)
    (hs : s ∈ enabledHandlers g1 g2 c iw cw) : s ∈ enabledHandlers g1 g2 c iw' cw' := by
  unfold enabledHandlers at hs ⊢
  rcases List.mem_append.1 hs with hs | hs
  · obtain ⟨e, he, rfl⟩ := List.mem_map.1 hs
    obtain ⟨hmem, hg⟩ := List.mem_filter.1 he
    exact List.mem_append_left _
      (List.mem_map.2 ⟨e, List.mem_filter.2 ⟨hiw.mem_iff.2 hmem, hg⟩, rfl⟩)
  · obtain ⟨e, he, hse⟩ := List.mem_flatMap.1 hs
    obtain ⟨hmem, hg⟩ := List.mem_filter.1 he
    exact List.mem_append_right _
      (List.mem_flatMap.2 ⟨e, List.mem_filter.2 ⟨hcw.mem_iff.2 hmem, hg⟩, hse⟩)

/-- C10: `WebhookHandlerPath` is not reset between calls, so a second call is
met by a panic.  When a first call returned nil and invoked at least one
handler, a second call on the state it left, with the same configuration and
the same handlers (the two maps ranged over in any order), invokes exactly one
handler, the first one that passes its gate, and panics with
`webhook handler path m duplicated`, `m` being the mutate path of that handler;
`WebhookHandlerPath` is left as the first call made it. -/
theorem C10_second_call_panics (g1 g2 : String → List String → Bool) (c : Config)
    (iw iw' : GoMap Handler) (cw cw' : Option (GoMap (Slice Handler))) (st : State)
    (hiw : iw'.Perm iw) (hcw : (rangeMap cw').Perm (rangeMap cw))
    (h1 : (SetupWithManager g1 g2 c iw cw st).1 = Outcome.nil)
    (hne : (SetupWithManager g1 g2 c iw cw st).2.invoked ≠ st.invoked) :
    ∃ s, (enabledHandlers g1 g2 c iw' cw').head? = some s ∧
      s ∈ enabledHandlers g1 g2 c iw cw ∧
      (SetupWithManager g1 g2 c iw' cw' (SetupWithManager g1 g2 c iw cw st).2).1
        = Outcome.panicked ("webhook handler path " ++ s.m ++ " duplicated") ∧
      (SetupWithManager g1 g2 c iw' cw' (SetupWithManager g1 g2 c iw cw st).2).2.invoked
        = (SetupWithManager g1 g2 c iw cw st).2.invoked ++ [s] ∧
      (SetupWithManager g1 g2 c iw' cw'
          (SetupWithManager g1 g2 c iw cw st).2).2.WebhookHandlerPath
        = (SetupWithManager g1 g2 c iw cw st).2.WebhookHandlerPath := by
  obtain ⟨ho, hwp, hinv⟩ := SetupWithManager_agree g1 g2 c iw cw st
  obtain ⟨np, ni, ne, _⟩ := setupList_nil_inv (enabledHandlers g1 g2 c iw cw) st (ho ▸ h1)
  obtain ⟨ho2, hwp2, hinv2⟩ :=
    SetupWithManager_agree g1 g2 c iw' cw' (SetupWithManager g1 g2 c iw cw st).2
  -- the first call invoked a handler, so some handler passes its gate
  have hE : enabledHandlers g1 g2 c iw cw ≠ [] := by
    intro hnil
    rw [hinv, ni, hnil, List.append_nil] at hne
    exact hne rfl
  obtain ⟨x, hx⟩ := List.exists_mem_of_ne_nil _ hE
  have hx' := mem_enabledHandlers_of_perm g1 g2 c iw iw' cw cw' hiw hcw x hx
  cases hE' : enabledHandlers g1 g2 c iw' cw' with
  | nil => rw [hE'] at hx'; exact absurd hx' (List.not_mem_nil _)
  | cons s rest =>
    have hs' : s ∈ enabledHandlers g1 g2 c iw' cw' := by rw [hE']; exact List.mem_cons_self _ _
    have hs : s ∈ enabledHandlers g1 g2 c iw cw :=
      mem_enabledHandlers_of_perm g1 g2 c iw' iw cw' cw hiw.symm hcw.symm s hs'
    have hm : s.m ∈ (SetupWithManager g1 g2 c iw cw st).2.WebhookHandlerPath := by
      rw [hwp, np]
      apply List.mem_append_right
      exact List.mem_flatMap.2 ⟨s, hs, by simp [Handler.paths]⟩
    have hd := setup_of_dup_m s (SetupWithManager g1 g2 c iw cw st).2 (ne s hs) hm
    have hstop : (setup s (SetupWithManager g1 g2 c iw cw st).2).1 ≠ Outcome.nil := by
      rw [hd]; simp
    rw [hE', setupList_cons_stop s rest _ hstop, hd] at ho2 hwp2 hinv2
    exact ⟨s, rfl, hs, ho2, hinv2, hwp2⟩

/-- Witness of C10: two controllers; the second call ranges over them in the
other order and panics at the gateway handler, the first it reaches. -/
theorem C10_second_call_panics_witness :
    (SetupWithManager listed listed ⟨[], ["nodepool", "raven"]⟩ []
        (some [("raven", some [⟨"/m-gateway", "/v-gateway", none⟩]),
          ("nodepool", some [⟨"/m-a", "/v-a", none⟩])])
        (SetupWithManager listed listed ⟨[], ["nodepool", "raven"]⟩ []
          (some [("nodepool", some [⟨"/m-a", "/v-a", none⟩]),
            ("raven", some [⟨"/m-gateway", "/v-gateway", none⟩])]) State.init).2).1
      = Outcome.panicked "webhook handler path /m-gateway duplicated" := by
  obtain ⟨s, hhead, _, hout, _, _⟩ :=
    C10_second_call_panics listed listed ⟨[], ["nodepool", "raven"]⟩ [] []
      (some [("nodepool", some [⟨"/m-a", "/v-a", none⟩]),
        ("raven", some [⟨"/m-gateway", "/v-gateway", none⟩])])
      (some [("raven", some [⟨"/m-gateway", "/v-gateway", none⟩]),
        ("nodepool", some [⟨"/m-a", "/v-a", none⟩])])
      State.init (List.Perm.refl _) (List.Perm.swap _ _ _) (by decide) (by decide)
  have hs : s = ⟨"/m-gateway", "/v-gateway", none⟩ := by
    have hval : (enabledHandlers listed listed ⟨[], ["nodepool", "raven"]⟩ []
        (some [("raven", some [⟨"/m-gateway", "/v-gateway", none⟩]),
          ("nodepool", some [⟨"/m-a", "/v-a", none⟩])])).head?
        = some ⟨"/m-gateway", "/v-gateway", none⟩ := by decide
    rw [hval] at hhead
    exact (Option.some.inj hhead).symm
  rw [hs] at hout
  exact hout

/-! ## Properties of the readiness checks -/

/-- C6: while the `Inited` signal has not fired, `Checker` returns the error
`webhook controller has not initialized` and hands nothing to
`health.Checker`; once it has fired, `Checker` hands the request to
`health.Checker`, once, and returns what it returns. -/
theorem C6_checker_gated_by_inited {Req : Type} (healthChecker : Option Req → Option String)
    (req : Option Req) :
    Checker false healthChecker req
        = (some "webhook controller has not initialized", []) ∧
      (Checker false healthChecker req).1 ≠ none ∧
      Checker true healthChecker req = (healthChecker req, [req]) := by
  simp [Checker]


/-! ### `Initialize` -/

/-- C7, as stated, fails: when `webhookcontroller.New` returns an error,
`Initialize` returns it although the `Inited` signal fires within 20 seconds. -/
theorem C7_counterexample :
    (Initialize ⟨some "no scheme", true⟩).1 = some "no scheme" ∧
      (InitEnv.initedWithin20s ⟨some "no scheme", true⟩) = true ∧
      ¬ ((Initialize ⟨some "no scheme", true⟩).1 ≠ none ↔
          (InitEnv.initedWithin20s ⟨some "no scheme", true⟩) = false) := by
  decide

/-- C7, amended: `Initialize` returns a non-nil error if and only if
`webhookcontroller.New` returns an error or the `Inited` signal does not fire
within 20 seconds.  An error of `New` is returned as it is, at once, without
launching the controller; when `New` succeeds the controller is launched, and
`Initialize` returns an error, the one about waiting more than 20s, if and only
if the signal does not fire within 20 seconds. -/
theorem C7_Initialize_error_iff (env : InitEnv) :
    ((Initialize env).1 ≠ none ↔ env.newErr ≠ none ∨ env.initedWithin20s = false) ∧
      (∀ err, env.newErr = some err → Initialize env = (some err, false)) ∧
      (env.newErr = none →
        ((Initialize env).1 ≠ none ↔ env.initedWithin20s = false) ∧
        (env.initedWithin20s = true → Initialize env = (none, true)) ∧
        (env.initedWithin20s = false → Initialize env
          = (some "failed to start webhook controller for waiting more than 20s", true))) := by
  obtain ⟨newErr, w⟩ := env
  cases newErr with
  | some err => simp [Initialize]
  | none => cases w <;> simp [Initialize]

/-- Witness of C7: `New` succeeds and the signal does not fire in time. -/
theorem C7_Initialize_error_iff_witness :
    Initialize ⟨none, false⟩
      = (some "failed to start webhook controller for waiting more than 20s", true) :=
  ((C7_Initialize_error_iff ⟨none, false⟩).2.2 rfl).2.2 rfl

/-! ### `WaitReady` -/

/-- A failed poll: the loop goes on to the next iteration, one more `Checker`
call made and two more seconds slept. -/
theorem WaitReadyLoop_fail {Req : Type} (env : Env Req) (fuel k : Nat) (tr : WaitTrace Req)
    (e : String) (h : checkerAt env k = some e) :
    ∃ tr2 : WaitTrace Req,
      WaitReadyLoop env (fuel + 1) k tr = WaitReadyLoop env fuel (k + 1) tr2 ∧
      tr2.checkerCalls = tr.checkerCalls + 1 ∧ tr2.slept = tr.slept + second * 2 := by
  unfold checkerAt at h
  by_cases hd : env.since k > second * 5
  · refine ⟨{ checkerCalls := tr.checkerCalls + 1
              probeCalls := tr.probeCalls ++ (Checker (env.inited k) (env.healthChecker k) none).2
              warnings := tr.warnings ++ [(env.since k, e)]
              slept := tr.slept + second * 2 }, ?_, rfl, rfl⟩
    simp only [WaitReadyLoop, h, if_pos hd]
  · refine ⟨{ checkerCalls := tr.checkerCalls + 1
              probeCalls := tr.probeCalls ++ (Checker (env.inited k) (env.healthChecker k) none).2
              warnings := tr.warnings
              slept := tr.slept + second * 2 }, ?_, rfl, rfl⟩
    simp only [WaitReadyLoop, h, if_neg hd]

/-- A successful poll: the loop returns nil at once. -/
theorem WaitReadyLoop_ok {Req : Type} (env : Env Req) (fuel k : Nat) (tr : WaitTrace Req)
    (h : checkerAt env k = none) :
    ∃ tr2 : WaitTrace Req,
      WaitReadyLoop env (fuel + 1) k tr = some (none, tr2) ∧
      tr2.checkerCalls = tr.checkerCalls + 1 ∧ tr2.slept = tr.slept := by
  unfold checkerAt at h
  refine ⟨{ checkerCalls := tr.checkerCalls + 1
            probeCalls := tr.probeCalls ++ (Checker (env.inited k) (env.healthChecker k) none).2
            warnings := tr.warnings
            slept := tr.slept }, ?_, rfl, rfl⟩
  simp only [WaitReadyLoop, h]

/-- The loop started at iteration `k`, when the first successful poll is the
one of iteration `k + n`. -/
theorem WaitReadyLoop_first_ok {Req : Type} (env : Env Req) (n : Nat) :
    ∀ (k : Nat) (tr : WaitTrace Req), checkerAt env (k + n) = none →
      (∀ i, i < n → checkerAt env (k + i) ≠ none) →
      (∀ fuel, fuel ≤ n → WaitReadyLoop env fuel k tr = none) ∧
      (∀ fuel, n < fuel → ∃ tr2 : WaitTrace Req,
        WaitReadyLoop env fuel k tr = some (none, tr2) ∧
        tr2.checkerCalls = tr.checkerCalls + (n + 1) ∧
        tr2.slept = tr.slept + second * 2 * n) := by
  induction n with
  | zero =>
    intro k tr hok _
    constructor
    · intro fuel hf
      have : fuel = 0 := by omega
      subst this
      rfl
    · intro fuel hf
      obtain ⟨f, rfl⟩ : ∃ f, fuel = f + 1 := ⟨fuel - 1, by omega⟩
      obtain ⟨tr2, hrun, hc, hs⟩ := WaitReadyLoop_ok env f k tr hok
      exact ⟨tr2, hrun, by rw [hc], by rw [hs]; simp⟩
  | succ n ih =>
    intro k tr hok hfail
    have h0 : checkerAt env k ≠ none := by simpa using hfail 0 (Nat.succ_pos n)
    obtain ⟨e, he⟩ := Option.ne_none_iff_exists'.1 h0
    have hok' : checkerAt env (k + 1 + n) = none := by
      have : k + 1 + n = k + (n + 1) := by omega
      rw [this]; exact hok
    have hfail' : ∀ i, i < n → checkerAt env (k + 1 + i) ≠ none := by
      intro i hi
      have : k + 1 + i = k + (i + 1) := by omega
      rw [this]; exact hfail (i + 1) (by omega)
    constructor
    · intro fuel hf
      cases fuel with
      | zero => rfl
      | succ f =>
        obtain ⟨tr2, hrun, _, _⟩ := WaitReadyLoop_fail env f k tr e he
        rw [hrun]
        exact (ih (k + 1) tr2 hok' hfail').1 f (by omega)
    · intro fuel hf
      obtain ⟨f, rfl⟩ : ∃ f, fuel = f + 1 := ⟨fuel - 1, by omega⟩
      obtain ⟨tr2, hrun, hc, hs⟩ := WaitReadyLoop_fail env f k tr e he
      obtain ⟨tr3, hrun3, hc3, hs3⟩ := (ih (k + 1) tr2 hok' hfail').2 f (by omega)
      refine ⟨tr3, by rw [hrun, hrun3], by rw [hc3, hc]; omega, ?_⟩
      rw [hs3, hs]
      push_cast
      ring

/-- The loop never returns an error. -/
theorem WaitReadyLoop_returns_nil {Req : Type} (env : Env Req) (fuel : Nat) :
    ∀ (k : Nat) (tr : WaitTrace Req) (r : Option String × WaitTrace Req),
      WaitReadyLoop env fuel k tr = some r → r.1 = none := by
  induction fuel with
  | zero => intro k tr r h; simp [WaitReadyLoop] at h
  | succ f ih =>
    intro k tr r h
    cases hc : checkerAt env k with
    | none =>
      obtain ⟨tr2, hrun, _, _⟩ := WaitReadyLoop_ok env f k tr hc
      rw [hrun] at h
      rw [← Option.some.inj h]
    | some e =>
      obtain ⟨tr2, hrun, _, _⟩ := WaitReadyLoop_fail env f k tr e hc
      rw [hrun] at h
      exact ih _ _ _ h

/-- While every poll fails the loop does not return. -/
theorem WaitReadyLoop_all_fail {Req : Type} (env : Env Req)
    (hfail : ∀ k, checkerAt env k ≠ none) (fuel : Nat) :
    ∀ (k : Nat) (tr : WaitTrace Req), WaitReadyLoop env fuel k tr = none := by
  induction fuel with
  | zero => intro k tr; rfl
  | succ f ih =>
    intro k tr
    obtain ⟨e, he⟩ := Option.ne_none_iff_exists'.1 (hfail k)
    obtain ⟨tr2, hrun, _, _⟩ := WaitReadyLoop_fail env f k tr e he
    rw [hrun]
    exact ih _ _

/-- C8: `WaitReady` never returns an error, and returns only when ready.  For
every course of the `Checker(nil)` calls: whenever it returns, it returns nil;
when the call of iteration `n` is the first to return nil, `WaitReady` has not
returned after `n` iterations or fewer, and with more it returns nil having
called `Checker` exactly `n + 1` times and slept `n` times two seconds; when
every call fails it never returns. -/
theorem C8_WaitReady_returns_only_when_ready {Req : Type} (env : Env Req) :
    (∀ fuel r, WaitReady env fuel = some r → r.1 = none) ∧
      (∀ n, checkerAt env n = none → (∀ k, k < n → checkerAt env k ≠ none) →
        (∀ fuel, fuel ≤ n → WaitReady env fuel = none) ∧
        (∀ fuel, n < fuel → ∃ tr : WaitTrace Req,
          WaitReady env fuel = some (none, tr) ∧ tr.checkerCalls = n + 1 ∧
          tr.slept = second * 2 * n)) ∧
      ((∀ k, checkerAt env k ≠ none) → ∀ fuel, WaitReady env fuel = none) := by
  refine ⟨?_, ?_, ?_⟩
  · intro fuel r h
    exact WaitReadyLoop_returns_nil env fuel _ _ r h
  · intro n hok hfail
    have h := WaitReadyLoop_first_ok env n 0
      { checkerCalls := 0, probeCalls := [], warnings := [], slept := 0 }
      (by simpa using hok) (by intro i hi; simpa using hfail i hi)
    refine ⟨h.1, ?_⟩
    intro fuel hf
    obtain ⟨tr, hrun, hc, hs⟩ := h.2 fuel hf
    exact ⟨tr, hrun, by simpa using hc, by simpa using hs⟩
  · intro hfail fuel
    exact WaitReadyLoop_all_fail env hfail fuel _ _

/-- Witness of C8: with the signal firing at 7 s, `WaitReady` has not returned
after four polls and returns nil at the fifth. -/
theorem C8_WaitReady_returns_only_when_ready_witness :
    WaitReady readyAfterDelay 4 = none ∧
      ∃ tr : WaitTrace Unit, WaitReady readyAfterDelay 5 = some (none, tr) ∧
        tr.checkerCalls = 4 + 1 ∧ tr.slept = second * 2 * (4 : Nat) :=
  ⟨((C8_WaitReady_returns_only_when_ready readyAfterDelay).2.1 4 (by decide)
      (by decide)).1 4 (Nat.le_refl 4),
    ((C8_WaitReady_returns_only_when_ready readyAfterDelay).2.1 4 (by decide)
      (by decide)).2 5 (by decide)⟩


/-! ## Properties of the registry -/

theorem GoMap.get_set_same {α : Type} (t : GoMap (Slice α)) (name : String) (v : Slice α) :
    GoMap.get (GoMap.set t name v) name = v := by
  induction t with
  | nil => simp [GoMap.set, GoMap.get]
  | cons e rest ih =>
    obtain ⟨k, w⟩ := e
    by_cases hk : k = name
    · simp [GoMap.set, GoMap.get, hk]
    · simp [GoMap.set, GoMap.get, hk, ih]

theorem GoMap.get_set_other {α : Type} (t : GoMap (Slice α)) (name other : String)
    (v : Slice α) (h : other ≠ name) :
    GoMap.get (GoMap.set t name v) other = GoMap.get t other := by
  induction t with
  | nil => simp [GoMap.set, GoMap.get, Ne.symm h]
  | cons e rest ih =>
    obtain ⟨k, w⟩ := e
    by_cases hk : k = name
    · subst hk
      simp [GoMap.set, GoMap.get, Ne.symm h]
    · by_cases hk2 : k = other
      · subst hk2
        simp [GoMap.set, GoMap.get, hk]
      · simp [GoMap.set, GoMap.get, hk, hk2, ih]

theorem handlersOf_add_same {α : Type} (t : Option (GoMap (Slice α))) (name : String)
    (handler : α) :
    handlersOf (addControllerWebhook t name handler) name = handlersOf t name ++ [handler] := by
  cases t with
  | none =>
    simp [handlersOf, addControllerWebhook, rangeMap, GoMap.get, GoMap.set, goAppend,
      Slice.toList]
  | some m =>
    simp only [handlersOf, addControllerWebhook, rangeMap, GoMap.get_set_same]
    cases hg : GoMap.get m name with
    | none => simp [GoMap.get_set_same, goAppend, Slice.toList]
    | some xs => simp [hg, goAppend, Slice.toList]

theorem get_add_other {α : Type} (t : Option (GoMap (Slice α))) (name other : String)
    (handler : α) (h : other ≠ name) :
    GoMap.get (rangeMap (addControllerWebhook t name handler)) other
      = GoMap.get (rangeMap t) other := by
  cases t with
  | none =>
    simp [addControllerWebhook, rangeMap, GoMap.get, GoMap.set, Ne.symm h]
  | some m =>
    simp only [addControllerWebhook, rangeMap]
    rw [GoMap.get_set_other _ _ _ _ h]
    cases hg : GoMap.get m name with
    | none => simp [GoMap.get_set_other _ _ _ _ h]
    | some xs => simp

theorem handlersOf_foldl_add {α : Type} (name : String) (adds : List (String × α)) :
    ∀ t : Option (GoMap (Slice α)),
      handlersOf (adds.foldl (fun t e => addControllerWebhook t e.1 e.2) t) name
        = handlersOf t name
          ++ (adds.filter (fun e => decide (e.1 = name))).map (fun e => e.2) := by
  induction adds with
  | nil => intro t; simp
  | cons e rest ih =>
    intro t
    obtain ⟨k, x⟩ := e
    rw [List.foldl_cons, ih]
    by_cases hk : k = name
    · subst hk
      simp [handlersOf_add_same]
    · have : handlersOf (addControllerWebhook t k x) name = handlersOf t name := by
        unfold handlersOf
        rw [get_add_other t k name x (Ne.symm hk)]
      simp [this, hk]

/-- C9: `addControllerWebhook(name, handler)` leaves under `name` the list it
held before (empty when the table was nil or had no such name) with `handler`
appended at the end, and leaves what is stored under every other name as it
was.  Adding the same handler twice yields two entries, and after any sequence
of additions the list under `name` is the former list followed by the handlers
added under `name`, in the order of the additions. -/
theorem C9_addControllerWebhook_appends {α : Type} (t : Option (GoMap (Slice α)))
    (name : String) (handler : α) :
    handlersOf (addControllerWebhook t name handler) name = handlersOf t name ++ [handler] ∧
      handlersOf (addControllerWebhook none name handler) name = [handler] ∧
      (∀ m : GoMap (Slice α), GoMap.get m name = none →
        handlersOf (addControllerWebhook (some m) name handler) name = [handler]) ∧
      (∀ other, other ≠ name →
        GoMap.get (rangeMap (addControllerWebhook t name handler)) other
          = GoMap.get (rangeMap t) other) ∧
      handlersOf (addControllerWebhook (addControllerWebhook t name handler) name handler) name
        = handlersOf t name ++ [handler, handler] ∧
      (∀ adds : List (String × α),
        handlersOf (adds.foldl (fun t e => addControllerWebhook t e.1 e.2) t) name
          = handlersOf t name
            ++ (adds.filter (fun e => decide (e.1 = name))).map (fun e => e.2)) := by
  refine ⟨handlersOf_add_same t name handler, ?_, ?_, ?_, ?_, ?_⟩
  · rw [handlersOf_add_same]; rfl
  · intro m hm
    rw [handlersOf_add_same]
    simp [handlersOf, rangeMap, hm, Slice.toList]
  · intro other h
    exact get_add_other t name other handler h
  · rw [handlersOf_add_same, handlersOf_add_same]; simp
  · intro adds
    exact handlersOf_foldl_add name adds t

/-- Witness of C9: the registrations of `init` for the controllers `raven` and
`nodepool`, handlers numbered in the order of the calls; the list of `raven` is
untouched by the additions under `nodepool`. -/
theorem C9_addControllerWebhook_appends_witness :
    GoMap.get (rangeMap (addControllerWebhook
        (addControllerWebhook (addControllerWebhook none "raven" 0) "nodepool" 1)
        "nodepool" 2)) "raven"
      = GoMap.get (rangeMap
        (addControllerWebhook (addControllerWebhook none "raven" 0) "nodepool" 1)) "raven" ∧
    handlersOf (addControllerWebhook
        (addControllerWebhook (addControllerWebhook none "raven" 0) "nodepool" 1)
        "nodepool" 2) "nodepool" = [1, 2] :=
  ⟨(C9_addControllerWebhook_appends
      (addControllerWebhook (addControllerWebhook none "raven" 0) "nodepool" 1)
      "nodepool" 2).2.2.2.1 "raven" (by decide),
    by decide⟩

end Webhook
